import Mathlib

/-!
Verification of the `archiver` mail delivery service against its
natural-language specification.

The development shallowly embeds the data model (`src/archiver/database.py`),
the WSGI handlers (`src/archiver/wsgi.py`) and the MIME ingest path
(`src/archiver/loader.py`).  Stateful SQL is embedded as explicit state
passing on a `DB` record of row lists; server time is an explicit `Int`
parameter (`func.now()` is one value per transaction); SQL `ORDER BY` is a
stable insertion sort on the emitted key; Python exceptions are `Except` /
`Option` results.  External collaborators (the werkzeug `Accept` matcher, the
JWT verifier, the MIME sniffer, Python codecs) are embedded at their
interfaces as explicit parameters, constrained only by their documented
contracts.
-/

namespace Archiver

/-- A byte string, each entry a byte value. -/
abbrev Bytes := List Nat

/-- `mail` table row (database.py `Mail`): primary key `id` (the Message-ID),
`date`, extracted plaintext `text`, original message bytes `data`. -/
structure Mail where
  id : String
  date : Int
  text : String
  data : Bytes
deriving Repr, DecidableEq

/-- `attachment` table row (database.py `Attachment`): compound key
`(mail_id, number)`, optional `name`, MIME `type`, optional charset `code`,
payload `data`. -/
structure Attachment where
  mail_id : String
  number : Nat
  name : Option String
  type : String
  code : Option String
  data : Bytes
deriving Repr, DecidableEq

/-- `consumer` table row (database.py `Consumer`). -/
structure Consumer where
  id : Nat
  name : String
deriving Repr, DecidableEq

/-- `dispatch` table row (database.py `Dispatch`): compound key
`(consumer_id, mail_id)`, optional `last_time`, required `next_time`. -/
structure Dispatch where
  consumer_id : Nat
  mail_id : String
  last_time : Option Int
  next_time : Int
  created_at : Int
deriving Repr, DecidableEq

/-- The database state: one list of rows per table. -/
structure DB where
  mails : List Mail
  attachments : List Attachment
  consumers : List Consumer
  dispatches : List Dispatch
deriving Repr, DecidableEq

/-- Primary-key integrity of the store (primary keys and the I1/I3
uniqueness invariants of the spec, which the schema enforces):
mail ids, dispatch keys `(consumer_id, mail_id)` and attachment keys
`(mail_id, number)` are unique. -/
def DB.WF (db : DB) : Prop :=
  db.mails.Pairwise (fun a b => a.id ≠ b.id) ∧
  db.dispatches.Pairwise
    (fun a b => (a.consumer_id, a.mail_id) ≠ (b.consumer_id, b.mail_id)) ∧
  db.attachments.Pairwise
    (fun a b => (a.mail_id, a.number) ≠ (b.mail_id, b.number))

instance (db : DB) : Decidable db.WF := by
  unfold DB.WF; infer_instance

/-- In a list whose elements have pairwise distinct keys, two members with
the same key are the same element. -/
theorem pairwise_key_eq {α β : Type} (key : α → β) {l : List α}
    (h : l.Pairwise fun a b => key a ≠ key b) {a b : α}
    (ha : a ∈ l) (hb : b ∈ l) (hk : key a = key b) : a = b := by
  induction l with
  | nil => cases ha
  | cons x xs ih =>
    rcases List.pairwise_cons.mp h with ⟨hx, hxs⟩
    rcases List.mem_cons.mp ha with rfl | ha' <;>
      rcases List.mem_cons.mp hb with rfl | hb'
    · rfl
    · exact absurd hk (hx _ hb')
    · exact absurd hk.symm (hx _ ha')
    · exact ih hxs ha' hb'

/-! ### UTF-8 codec

Python's strict `bytes.decode("utf-8")` / `str.encode("utf-8")`, embedded over
byte lists and Unicode code point lists.  The decoder rejects every byte
sequence Python rejects: stray continuation bytes, overlong encodings,
surrogate code points and code points beyond U+10FFFF. -/

/-- Python `s.startswith(pre)`, over the character lists of the strings. -/
def strStartsWith (s pre : String) : Bool :=
  s.toList.take pre.toList.length == pre.toList

/-- Whether `b` is a UTF-8 continuation byte `0x80..0xBF`. -/
def utf8Cont (b : Nat) : Bool := 0x80 ≤ b && b ≤ 0xBF

/-- Strict UTF-8 decoding of a byte list into code points; `none` models
`UnicodeDecodeError`. -/
def utf8Decode : Bytes → Option (List Nat)
  | [] => some []
  | b :: rest =>
    if b ≤ 0x7F then (utf8Decode rest).map (b :: ·)
    else if 0xC2 ≤ b ∧ b ≤ 0xDF then
      match rest with
      | b1 :: rest2 =>
        if utf8Cont b1 then
          (utf8Decode rest2).map (((b - 0xC0) * 64 + (b1 - 0x80)) :: ·)
        else none
      | _ => none
    else if 0xE0 ≤ b ∧ b ≤ 0xEF then
      match rest with
      | b1 :: b2 :: rest2 =>
        let lo := if b = 0xE0 then 0xA0 else 0x80
        let hi := if b = 0xED then 0x9F else 0xBF
        if (lo ≤ b1 ∧ b1 ≤ hi) ∧ utf8Cont b2 then
          (utf8Decode rest2).map
            (((b - 0xE0) * 4096 + (b1 - 0x80) * 64 + (b2 - 0x80)) :: ·)
        else none
      | _ => none
    else if 0xF0 ≤ b ∧ b ≤ 0xF4 then
      match rest with
      | b1 :: b2 :: b3 :: rest2 =>
        let lo := if b = 0xF0 then 0x90 else 0x80
        let hi := if b = 0xF4 then 0x8F else 0xBF
        if (lo ≤ b1 ∧ b1 ≤ hi) ∧ utf8Cont b2 ∧ utf8Cont b3 then
          (utf8Decode rest2).map
            (((b - 0xF0) * 262144 + (b1 - 0x80) * 4096 +
              (b2 - 0x80) * 64 + (b3 - 0x80)) :: ·)
        else none
      | _ => none
    else none

/-- UTF-8 encoding of one code point; `none` models `UnicodeEncodeError`
(surrogates, out of range). -/
def utf8EncodeChar (c : Nat) : Option Bytes :=
  if c < 0x80 then some [c]
  else if c < 0x800 then some [0xC0 + c / 64, 0x80 + c % 64]
  else if c < 0x10000 then
    if 0xD800 ≤ c ∧ c ≤ 0xDFFF then none
    else some [0xE0 + c / 4096, 0x80 + (c / 64) % 64, 0x80 + c % 64]
  else if c < 0x110000 then
    some [0xF0 + c / 262144, 0x80 + (c / 4096) % 64,
          0x80 + (c / 64) % 64, 0x80 + c % 64]
  else none

/-- UTF-8 encoding of a code point list. -/
def utf8Encode : List Nat → Option Bytes
  | [] => some []
  | c :: cs =>
    match utf8EncodeChar c, utf8Encode cs with
    | some b, some bs => some (b ++ bs)
    | _, _ => none

/-! ### Authentication filter (`wsgi.py` `authenticate`) -/

/-- The payload of a bearer JWT as the verifier sees it: whether the HS256
signature verifies against the server secret, the token's algorithm, and the
`sub` claim if present.  Modelled at the interface of the external JWT
verifier (spec §6). -/
structure Token where
  sigValid : Bool
  alg : String
  sub : Option String
deriving Repr, DecidableEq

/-- `jwt.decode(token, secret, algorithms=["HS256"], options={require: [sub]})`:
succeeds with the `sub` claim exactly when the signature verifies, the
algorithm is HS256 and `sub` is present; every failure raises
`InvalidTokenError`, modelled as `none`. -/
def jwtDecode (t : Token) : Option String :=
  if t.sigValid && (t.alg == "HS256") && t.sub.isSome then t.sub else none

/-- `int(m.group(1))` on the digits matched by `re.match(r"^consumer_id=([0-9]+)$", sub)`:
`some n` exactly when `sub` is `consumer_id=` followed by one or more ASCII
digits — optionally followed by one trailing newline, which Python's `$`
(without `re.MULTILINE`) also accepts and which stays outside the captured
group — in which case `n` is the digits' decimal value. -/
def parseConsumerSub (sub : String) : Option Nat :=
  let cs := sub.toList
  let pre := "consumer_id=".toList
  if cs.take pre.length = pre then
    let rest := cs.drop pre.length
    let digits := if rest.getLast? = some '\n' then rest.dropLast else rest
    if digits ≠ [] ∧ digits.all (fun c => c.isDigit) then
      some (digits.foldl (fun n c => n * 10 + (c.toNat - 48)) 0)
    else none
  else none

/-- The `Authorization` header after werkzeug parsing: absent, or a
(lower-cased) scheme together with the token, where `none` stands for a
missing/empty token (falsy `authorization.token`). -/
structure Request where
  authorization : Option (String × Option Token)
deriving Repr, DecidableEq

/-- Outcome of the before-request filter: a 401 rejection carrying the
optional `error` parameter of the `WWW-Authenticate: bearer realm=<host>`
header (`realm` is always present), a 403, or the resolved consumer. -/
inductive AuthResult where
  | reject (error : Option String)
  | forbidden
  | ok (c : Consumer)
deriving Repr, DecidableEq

/-- `wsgi.py` `authenticate`: require a bearer `Authorization` header with a
non-empty token, verify it, require `sub` to match `^consumer_id=([0-9]+)$`,
and resolve the consumer by id. -/
def authenticate (db : DB) (r : Request) : AuthResult :=
  match r.authorization with
  | none => .reject none
  | some (scheme, tok) =>
    if scheme ≠ "bearer" then .reject none
    else match tok with
    | none => .reject (some "invalid_request")
    | some t =>
      match jwtDecode t with
      | none => .reject (some "invalid_token")
      | some sub =>
        match parseConsumerSub sub with
        | none => .reject (some "invalid_token")
        | some cid =>
          match db.consumers.find? (fun c => c.id == cid) with
          | none => .forbidden
          | some c => .ok c

/-! ### Content negotiation

The werkzeug `Accept` header object, embedded at its interface: its
truthiness (empty header) and its `best_match` function, which by contract
returns one of the offered mimetypes or `None`. -/

structure AcceptHeader where
  isEmpty : Bool
  best : List String → Option String
  best_mem : ∀ offer s, best offer = some s → s ∈ offer

/-- An `Accept` header that matches exactly the one mimetype `mt`. -/
def acceptExactly (mt : String) : AcceptHeader where
  isEmpty := false
  best := fun offer => offer.find? (fun s => s == mt)
  best_mem := fun _ _ h => List.mem_of_find?_eq_some h

/-- An absent/empty `Accept` header (falsy `request.accept_mimetypes`). -/
def acceptAbsent : AcceptHeader where
  isEmpty := true
  best := fun _ => none
  best_mem := fun _ _ h => by cases h

/-- An `Accept` header that matches none of the offered types
(e.g. `Accept: none/plain`). -/
def acceptUnmatchable : AcceptHeader where
  isEmpty := false
  best := fun _ => none
  best_mem := fun _ _ h => by cases h

/-- `if request.accept_mimetypes: best_match(offer) else "application/json"`,
the negotiation pattern shared by every handler. -/
def negotiate (a : AcceptHeader) (offer : List String) : Option String :=
  if a.isEmpty then some "application/json" else a.best offer

/-! ### Per-mail retrieval (`wsgi.py` `retrieve_mail` and friends) -/

/-- The serialized Mail resource, identified by the data the claims are
about: the mail's id and the metadata of the attachments it projects
(header materialization per spec §4.1 carries no additional row data). -/
structure MailResource where
  id : String
  attachments : List Attachment
deriving Repr, DecidableEq

/-- `loader.py` `load_mail_resource`, restricted to the stored rows it
serializes: the mail's id together with its attachment rows. -/
def load_mail_resource (db : DB) (m : Mail) : MailResource :=
  ⟨m.id, db.attachments.filter (fun a => a.mail_id == m.id)⟩

/-- `database.py` `Mail.consumer_select(consumer).filter_by(id=mid)`:
`SELECT mail FROM dispatch JOIN mail ON mail.id = dispatch.mail_id
WHERE dispatch.consumer_id = cid AND mail.id = mid`. -/
def consumer_select (db : DB) (cid : Nat) (mid : String) : List Mail :=
  (db.dispatches.filter fun d => d.consumer_id == cid).flatMap fun d =>
    db.mails.filter fun m => m.id == d.mail_id && m.id == mid

/-- A response of the `GET /mail/{id}` handler. -/
inductive MailView where
  | notFound
  | notAcceptable
  | text (mimetype : String) (body : List Nat)
  | json (resource : MailResource)
deriving Repr, DecidableEq

/-- `wsgi.py` `retrieve_mail_as_text`: look up the dispatch-joined mail
(404 when absent), then return `mail.data.decode("utf-8")` — the decode is
unguarded, so invalid UTF-8 raises (`Except.error`). -/
def retrieve_mail_as_text (db : DB) (cid : Nat) (id : String)
    (mimetype : String) : Except Unit MailView :=
  match (consumer_select db cid id).head? with
  | none => .ok .notFound
  | some mail =>
    match utf8Decode mail.data with
    | some s => .ok (.text mimetype s)
    | none => .error ()

/-- `wsgi.py` `retrieve_mail_as_json`: look up the dispatch-joined mail
(404 when absent) and serialize it. -/
def retrieve_mail_as_json (db : DB) (cid : Nat) (id : String) : MailView :=
  match (consumer_select db cid id).head? with
  | none => .notFound
  | some mail => .json (load_mail_resource db mail)

/-- `wsgi.py` `retrieve_mail`: negotiate over
`(text/plain, application/json, message/rfc822)` with default
`application/json`, dispatch to the text/JSON handlers, and otherwise
answer 404 or 406 according to whether the dispatch-joined mail exists. -/
def retrieve_mail (db : DB) (cid : Nat) (id : String) (a : AcceptHeader) :
    Except Unit MailView :=
  match negotiate a ["text/plain", "application/json", "message/rfc822"] with
  | some "text/plain" => retrieve_mail_as_text db cid id "text/plain"
  | some "message/rfc822" => retrieve_mail_as_text db cid id "message/rfc822"
  | some "application/json" => .ok (retrieve_mail_as_json db cid id)
  | _ =>
    if (consumer_select db cid id).isEmpty then .ok .notFound
    else .ok .notAcceptable

/-! ### Dispatch deletion (`wsgi.py` `delete_mail`) -/

/-- `wsgi.py` `delete_mail`: `DELETE FROM dispatch WHERE mail_id = id AND
consumer_id = cid`; 404 when the rowcount is 0, else 200.  Returns the
status and the committed database. -/
def delete_mail (db : DB) (cid : Nat) (id : String) : Nat × DB :=
  let hit := fun d : Dispatch => d.mail_id == id && d.consumer_id == cid
  let rowcount := db.dispatches.countP hit
  (if rowcount = 0 then 404 else 200,
   { db with dispatches := db.dispatches.filter (fun d => !(hit d)) })

/-! ### Per-attachment retrieval (`wsgi.py` `retrieve_attachment`) -/

/-- The join in `retrieve_attachment`: `SELECT attachment FROM dispatch
JOIN mail ON mail.id = dispatch.mail_id JOIN attachment ON
attachment.mail_id = mail.id WHERE dispatch.consumer_id = cid AND
mail.id = mail_id AND attachment.number = number`. -/
def attachment_join (db : DB) (cid : Nat) (mail_id : String) (number : Nat) :
    List Attachment :=
  (db.dispatches.filter fun d => d.consumer_id == cid).flatMap fun d =>
    (db.mails.filter fun m => m.id == d.mail_id && m.id == mail_id).flatMap
      fun m => db.attachments.filter
        fun a => a.mail_id == m.id && a.number == number

/-- `werkzeug.utils.get_content_type` applied as in the handlers: the
mimetype with the attachment's charset parameter when a `code` is present. -/
def content_type (mimetype : String) (code : Option String) : String :=
  match code with
  | some c => mimetype ++ "; charset=" ++ c
  | none => mimetype

/-- A response of the `GET /mail/{mail_id}/attachment/{number}` handler. -/
inductive AttachmentView where
  | notFound
  | notAcceptable
  | native (contentType : String) (data : Bytes)
  | text (contentType : String) (data : Bytes)
  | json (mail_id : String) (number : Nat) (name : Option String)
      (type : String) (code : Option String)
  | octet (data : Bytes)
deriving Repr, DecidableEq

/-- `wsgi.py` `retrieve_attachment`: look up the dispatch-joined attachment
(404 when absent), negotiate over `(attachment.type, application/json,
[text/plain when the type is text/*], application/octet-stream)` with
default `application/json`, and return the body for the matched type. -/
def retrieve_attachment (db : DB) (cid : Nat) (mail_id : String)
    (number : Nat) (a : AcceptHeader) : AttachmentView :=
  match (attachment_join db cid mail_id number).head? with
  | none => .notFound
  | some att =>
    let mime := [att.type, "application/json"] ++
      (if strStartsWith att.type "text/" then ["text/plain"] else []) ++
      ["application/octet-stream"]
    let mimetype := negotiate a mime
    if mimetype = some att.type then
      .native (content_type att.type att.code) att.data
    else if mimetype = some "text/plain" then
      .text (content_type "text/plain" att.code) att.data
    else if mimetype = some "application/json" then
      .json att.mail_id att.number att.name att.type att.code
    else if mimetype = some "application/octet-stream" then
      .octet att.data
    else .notAcceptable

/-! ### Delivery engine (`wsgi.py` `select_mail_as_json` / `stream_mail`)

Server time is an explicit `hour`-granular `Int`: every occurrence of
`func.now()` inside one transaction is the same value `now`. -/

/-- `timedelta(hours=1)` in the time unit of the embedding (seconds). -/
def hour : Int := 3600

/-- The `SET last_time = now(), next_time = now() + interval 1 hour`
applied to one dispatch row. -/
def advance (now : Int) (d : Dispatch) : Dispatch :=
  { d with last_time := some now, next_time := now + hour }

/-- The `WHERE` of the batch update and of `dispatch_select`:
`consumer_id = cid AND next_time <= now()`. -/
def isDue (cid : Nat) (now : Int) (d : Dispatch) : Bool :=
  d.consumer_id == cid && decide (d.next_time ≤ now)

/-- SQL `ORDER BY key ASC` as a stable sort (rows with equal keys keep
their stored order, one of the orders the store may produce). -/
def orderByNext (l : List Dispatch) : List Dispatch :=
  l.insertionSort (fun a b => a.next_time ≤ b.next_time)

/-- `wsgi.py` `select_mail_as_json` (batch `GET /mail`): a single CTE
updates every due dispatch of the consumer; the outer select joins the
CTE rows to mail, ordered by `dispatch_update.next_time` — the CTE's
`RETURNING` exposes the *post-update* rows, so that key is the updated
`next_time`.  Returns the serialized resources and the committed database. -/
def select_mail_as_json (db : DB) (cid : Nat) (now : Int) :
    List MailResource × DB :=
  let updated := (db.dispatches.filter (isDue cid now)).map (advance now)
  let ordered := orderByNext updated
  let mails := ordered.flatMap fun d =>
    db.mails.filter fun m => m.id == d.mail_id
  let committed := db.dispatches.map
    fun d => if isDue cid now d then advance now d else d
  (mails.map (load_mail_resource db), { db with dispatches := committed })

/-- `stream_mail`'s `dispatch_select` with the drain loop's
`ORDER BY next_time LIMIT 1` (`claim_one_due_dispatch`), optionally
restricted to one `mail_id` as in the notification branch (which reads the
first row without an explicit order). -/
def claim_one (db : DB) (cid : Nat) (now : Int) (mid : Option String) :
    Option Dispatch :=
  let due := db.dispatches.filter fun d => isDue cid now d &&
    match mid with
    | some m => d.mail_id == m
    | none => true
  (orderByNext due).head?

/-- The ORM flush of `dispatch.last_time = now(); dispatch.next_time =
now() + 1h` on the claimed row, identified by its primary key. -/
def applyAdvance (db : DB) (cid : Nat) (mid : String) (now : Int) : DB :=
  { db with dispatches := db.dispatches.map fun d =>
      if d.consumer_id == cid && d.mail_id == mid then advance now d else d }

/-- The resource streamed for a claimed dispatch, built from its
lazily-loaded mail (the dispatch→mail foreign key guarantees the row). -/
def resourceFor (db : DB) (mid : String) : MailResource :=
  match (db.mails.filter fun m => m.id == mid).head? with
  | some m => load_mail_resource db m
  | none => ⟨mid, []⟩

/-- One observable step of the streaming generator: the commit of the
single-dispatch update, and the `yield` of a resource line. -/
inductive Ev where
  | commit (mail_id : String)
  | emit (resource : MailResource)
deriving Repr, DecidableEq

/-- One iteration of the drain loop: claim the due dispatch with the least
`next_time`, advance it, build the resource, commit — the yield follows the
commit. -/
def drainStep (db : DB) (cid : Nat) (now : Int) :
    Option (Dispatch × MailResource × DB) :=
  match claim_one db cid now none with
  | none => none
  | some d =>
    some (d, resourceFor db d.mail_id, applyAdvance db cid d.mail_id now)

/-- The drain phase of `stream_mail`: iterate `drainStep` until no due
dispatch remains, recording the committed update before each yield.
`fuel` bounds the iteration count (each step advances one due dispatch
past `now`, so `db.dispatches.length` steps always suffice). -/
def drain (fuel : Nat) (db : DB) (cid : Nat) (now : Int) : List Ev × DB :=
  match fuel with
  | 0 => ([], db)
  | fuel + 1 =>
    match drainStep db cid now with
    | none => ([], db)
    | some (d, res, db1) =>
      let rest := drain fuel db1 cid now
      (Ev.commit d.mail_id :: Ev.emit res :: rest.1, rest.2)

/-- The notification branch of `stream_mail`: claim the dispatch for the
notified `mail_id` if it is still due (otherwise skip silently), advance
it, commit, yield. -/
def notifyStep (db : DB) (cid : Nat) (now : Int) (payload : String) :
    List Ev × DB :=
  match claim_one db cid now (some payload) with
  | none => ([], db)
  | some d =>
    ([Ev.commit d.mail_id, Ev.emit (resourceFor db d.mail_id)],
     applyAdvance db cid d.mail_id now)

/-! ### MIME ingest (`loader.py` `load_mail_record`) -/

/-- A scrubber payload: `bytes`, or a Python `str` as code points. -/
inductive Payload where
  | bytes (b : Bytes)
  | str (s : List Nat)
deriving Repr, DecidableEq

/-- One `(number, name, type, code, data)` tuple yielded by the external
scrubber (spec §6). -/
structure ScrubTuple where
  number : Nat
  name : Option String
  type : String
  code : Option String
  data : Payload
deriving Repr, DecidableEq

/-- The external text machinery at its interface: `sniff` is
`estimate_type` (the MIME sniffer, `none` on failure or no estimate);
`dec codec` is `bytes.decode(codec)` (`none` models `UnicodeDecodeError`);
`enc codec` is `str.encode(codec)` (`none` models `UnicodeEncodeError`). -/
structure Codecs where
  sniff : Payload → Option (String × Option String)
  dec : String → Bytes → Option (List Nat)
  enc : String → List Nat → Option Bytes

/-- Steps 1 of the ingest loop: for `application/octet-stream` and
`text/plain` parts, `type, code = estimate_type(data) or (type, code)`. -/
def sniffStage (cx : Codecs) (t : ScrubTuple) : String × Option String :=
  if t.type = "application/octet-stream" ∨ t.type = "text/plain" then
    (cx.sniff t.data).getD (t.type, t.code)
  else (t.type, t.code)

/-- Step 2 of the ingest loop: when the resulting type is `text/*` and the
payload is bytes, try `data.decode(code or "utf-8")`; a failed decode is
suppressed and the bytes kept. -/
def decodeStage (cx : Codecs) (type : String) (code : Option String)
    (p : Payload) : Payload :=
  match p with
  | .str s => .str s
  | .bytes b =>
    if strStartsWith type "text/" then
      match cx.dec (code.getD "utf-8") b with
      | some s => .str s
      | none => .bytes b
    else .bytes b

/-- The stored attachment produced for one scrubber tuple. -/
structure AttachmentRec where
  number : Nat
  name : Option String
  type : String
  code : Option String
  data : Bytes
deriving Repr, DecidableEq

/-- The per-tuple body of `load_mail_record`'s loop: sniff, decode, then
`if isinstance(data, str): data, code = data.encode(code or "utf-8"), "utf-8"`,
store `code` only for `text/*` types, and always store `type` and `data`.
`none` models an exception escaping the loop (a failed encode). -/
def load_attachment (cx : Codecs) (t : ScrubTuple) : Option AttachmentRec :=
  match decodeStage cx (sniffStage cx t).1 (sniffStage cx t).2 t.data with
  | .str s =>
    match cx.enc ((sniffStage cx t).2.getD "utf-8") s with
    | none => none
    | some b =>
      some ⟨t.number, t.name, (sniffStage cx t).1,
        if strStartsWith (sniffStage cx t).1 "text/" then some "utf-8"
          else none, b⟩
  | .bytes b =>
    some ⟨t.number, t.name, (sniffStage cx t).1,
      if strStartsWith (sniffStage cx t).1 "text/" ∧ (sniffStage cx t).2.isSome
        then (sniffStage cx t).2 else none, b⟩

/-- The ingested mail record: header fields plus the attachments in
scrubber order. -/
structure MailRec where
  id : String
  date : Int
  text : String
  data : Bytes
  attachments : List AttachmentRec
deriving Repr, DecidableEq

/-- `loader.py` `load_mail_record`, after the external parse and scrub:
build the mail row and run the attachment loop over the scrubber tuples;
`none` models an exception escaping from any tuple. -/
def load_mail_record (cx : Codecs) (id : String) (date : Int) (text : String)
    (origin : Bytes) (tuples : List ScrubTuple) : Option MailRec :=
  match tuples.mapM (load_attachment cx) with
  | none => none
  | some atts => some ⟨id, date, text, origin, atts⟩

/-! ### Concrete Python codecs for counterexamples -/

/-- `bytes.decode("iso-8859-1")`: each byte is the code point. -/
def latin1Decode (b : Bytes) : Option (List Nat) := some b

/-- `str.encode("iso-8859-1")`: code points above 255 raise. -/
def latin1Encode (s : List Nat) : Option Bytes :=
  if s.all (fun c => c ≤ 255) then some s else none

/-- The codec registry restricted to the names exercised here. -/
def pyDecode (codec : String) (b : Bytes) : Option (List Nat) :=
  if codec = "utf-8" then utf8Decode b
  else if codec = "iso-8859-1" then latin1Decode b
  else none

/-- The codec registry restricted to the names exercised here. -/
def pyEncode (codec : String) (s : List Nat) : Option Bytes :=
  if codec = "utf-8" then utf8Encode s
  else if codec = "iso-8859-1" then latin1Encode s
  else none

/-! ### Helper lemmas -/

theorem mem_consumer_select {db : DB} {cid : Nat} {mid : String} {m : Mail} :
    m ∈ consumer_select db cid mid ↔
      m ∈ db.mails ∧ m.id = mid ∧
        ∃ d ∈ db.dispatches, d.consumer_id = cid ∧ d.mail_id = m.id := by
  simp only [consumer_select, List.mem_flatMap, List.mem_filter,
    Bool.and_eq_true, beq_iff_eq]
  constructor
  · rintro ⟨d, ⟨hd, hdc⟩, hm, hmd, hmid⟩
    exact ⟨hm, hmid, d, hd, hdc, hmd.symm⟩
  · rintro ⟨hm, hmid, d, hd, hdc, hmd⟩
    exact ⟨d, ⟨hd, hdc⟩, hm, hmd.symm, hmid⟩

/-- With no `Dispatch(cid, mid)` row, the dispatch-joined mail query is
empty. -/
theorem consumer_select_eq_nil {db : DB} {cid : Nat} {mid : String}
    (hnd : ∀ d ∈ db.dispatches, d.consumer_id = cid → d.mail_id ≠ mid) :
    consumer_select db cid mid = [] := by
  rw [List.eq_nil_iff_forall_not_mem]
  intro m hm
  rcases mem_consumer_select.mp hm with ⟨_, hmid, d, hd, hdc, hdm⟩
  exact hnd d hd hdc (hdm.trans hmid)

theorem mem_attachment_join {db : DB} {cid : Nat} {mid : String} {n : Nat}
    {a : Attachment} :
    a ∈ attachment_join db cid mid n ↔
      a ∈ db.attachments ∧ a.mail_id = mid ∧ a.number = n ∧
        (∃ m ∈ db.mails, m.id = mid) ∧
        ∃ d ∈ db.dispatches, d.consumer_id = cid ∧ d.mail_id = mid := by
  simp only [attachment_join, List.mem_flatMap, List.mem_filter,
    Bool.and_eq_true, beq_iff_eq]
  constructor
  · rintro ⟨d, ⟨hd, hdc⟩, m, ⟨⟨hm, hmd, hmid⟩, ha, ham, han⟩⟩
    exact ⟨ha, ham.trans hmid, han, ⟨m, hm, hmid⟩, d, hd, hdc,
      hmd.symm.trans hmid⟩
  · rintro ⟨ha, ham, han, ⟨m, hm, hmid⟩, d, hd, hdc, hdm⟩
    exact ⟨d, ⟨hd, hdc⟩, m, ⟨⟨hm, hmid.trans hdm.symm, hmid⟩, ha,
      ham.trans hmid.symm, han⟩⟩

/-- With no `Dispatch(cid, mid)` row, the dispatch-joined attachment query
is empty. -/
theorem attachment_join_eq_nil {db : DB} {cid : Nat} {mid : String} {n : Nat}
    (hnd : ∀ d ∈ db.dispatches, d.consumer_id = cid → d.mail_id ≠ mid) :
    attachment_join db cid mid n = [] := by
  rw [List.eq_nil_iff_forall_not_mem]
  intro a ha
  rcases mem_attachment_join.mp ha with ⟨_, _, _, _, d, hd, hdc, hdm⟩
  exact hnd d hd hdc hdm

/-! ### C4 — authentication filter -/

/-- **C4.** The authentication filter answers 401 with only `realm` when the
`Authorization` header is absent or its scheme is not `bearer`; 401 with
`error=invalid_request` when the bearer token is empty; 401 with
`error=invalid_token` when HS256 verification fails (bad signature, other
algorithm or missing `sub`) or when `sub` does not match
`^consumer_id=([0-9]+)$`; and 403 when the token verifies but no Consumer
with the extracted id exists. -/
theorem authenticate_cases (db : DB) :
    (authenticate db ⟨none⟩ = .reject none) ∧
    (∀ s tok, s ≠ "bearer" →
      authenticate db ⟨some (s, tok)⟩ = .reject none) ∧
    (authenticate db ⟨some ("bearer", none)⟩ =
      .reject (some "invalid_request")) ∧
    (∀ t : Token, (t.sigValid = false ∨ t.alg ≠ "HS256" ∨ t.sub = none) →
      authenticate db ⟨some ("bearer", some t)⟩ =
        .reject (some "invalid_token")) ∧
    (∀ t : Token, ∀ sub, jwtDecode t = some sub → parseConsumerSub sub = none →
      authenticate db ⟨some ("bearer", some t)⟩ =
        .reject (some "invalid_token")) ∧
    (∀ t : Token, ∀ sub cid, jwtDecode t = some sub →
      parseConsumerSub sub = some cid →
      (∀ c ∈ db.consumers, c.id ≠ cid) →
      authenticate db ⟨some ("bearer", some t)⟩ = .forbidden) := by
  refine ⟨rfl, ?_, rfl, ?_, ?_, ?_⟩
  · intro s tok hs
    simp [authenticate, hs]
  · intro t ht
    have hdec : jwtDecode t = none := by
      unfold jwtDecode
      rcases ht with h | h | h
      · simp [h]
      · simp [h]
      · simp [h]
    simp [authenticate, hdec]
  · intro t sub hdec hparse
    simp [authenticate, hdec, hparse]
  · intro t sub cid hdec hparse hnone
    have hfind : db.consumers.find? (fun c => c.id == cid) = none := by
      rw [List.find?_eq_none]
      intro c hc
      simpa using hnone c hc
    simp [authenticate, hdec, hparse, hfind]

/-- Witness for C4 at concrete inputs; the last case exercises Python's
`$` accepting one trailing newline, so `sub = "consumer_id=0\n"` reaches
the consumer lookup (403) rather than `invalid_token`. -/
theorem authenticate_cases_witness :
    (authenticate ⟨[], [], [⟨1, "c"⟩], []⟩ ⟨some ("basic", none)⟩ =
      .reject none) ∧
    (authenticate ⟨[], [], [⟨1, "c"⟩], []⟩
      ⟨some ("bearer", some ⟨true, "HS384", some "consumer_id=1"⟩)⟩ =
      .reject (some "invalid_token")) ∧
    (authenticate ⟨[], [], [⟨1, "c"⟩], []⟩
      ⟨some ("bearer", some ⟨true, "HS256", some "id=1"⟩)⟩ =
      .reject (some "invalid_token")) ∧
    (authenticate ⟨[], [], [⟨1, "c"⟩], []⟩
      ⟨some ("bearer", some ⟨true, "HS256", some "consumer_id=0"⟩)⟩ =
      .forbidden) ∧
    (authenticate ⟨[], [], [⟨1, "c"⟩], []⟩
      ⟨some ("bearer", some ⟨true, "HS256", some "consumer_id=0\n"⟩)⟩ =
      .forbidden) := by
  refine ⟨?_, ?_, ?_, ?_, ?_⟩
  · exact (authenticate_cases _).2.1 "basic" none (by decide)
  · exact (authenticate_cases _).2.2.2.1 _ (by simp)
  · exact (authenticate_cases _).2.2.2.2.1 _ "id=1" (by decide) (by decide)
  · exact (authenticate_cases _).2.2.2.2.2 _ "consumer_id=0" 0 (by decide)
      (by decide) (by decide)
  · exact (authenticate_cases _).2.2.2.2.2 _ "consumer_id=0\n" 0 (by decide)
      (by decide) (by decide)

/-! ### C5 — 404 before 406 on `GET /mail/{id}` -/

/-- **C5.** For `GET /mail/{id}`: with no `Dispatch(consumer, id)` the
response is 404 for every `Accept` header; 406 arises only when the
dispatch-joined mail exists and the `Accept` header matches none of
`text/plain`, `application/json`, `message/rfc822`. -/
theorem retrieve_mail_404_before_406 (db : DB) (cid : Nat) (id : String)
    (a : AcceptHeader) :
    ((∀ d ∈ db.dispatches, d.consumer_id = cid → d.mail_id ≠ id) →
      retrieve_mail db cid id a = .ok .notFound) ∧
    (retrieve_mail db cid id a = .ok .notAcceptable →
      (∃ d ∈ db.dispatches, d.consumer_id = cid ∧ d.mail_id = id) ∧
      a.isEmpty = false ∧
      a.best ["text/plain", "application/json", "message/rfc822"] = none) := by
  constructor
  · intro hnd
    have hsel := consumer_select_eq_nil hnd
    unfold retrieve_mail
    split
    · unfold retrieve_mail_as_text
      rw [hsel]
      rfl
    · unfold retrieve_mail_as_text
      rw [hsel]
      rfl
    · unfold retrieve_mail_as_json
      rw [hsel]
      rfl
    · rw [hsel]
      rfl
  · intro hna
    unfold retrieve_mail at hna
    split at hna
    · unfold retrieve_mail_as_text at hna
      split at hna
      · exact absurd hna (by simp)
      · split at hna <;> exact absurd hna (by simp)
    · unfold retrieve_mail_as_text at hna
      split at hna
      · exact absurd hna (by simp)
      · split at hna <;> exact absurd hna (by simp)
    · unfold retrieve_mail_as_json at hna
      split at hna <;> exact absurd hna (by simp)
    · split at hna
      · exact absurd hna (by simp)
      · rename_i hneg h1 h2 h3 hne
        have hsel : ¬(consumer_select db cid id).isEmpty := by
          simpa using hne
        rcases List.exists_mem_of_ne_nil _
            (by simpa [List.isEmpty_iff] using hsel) with ⟨m, hm⟩
        rcases mem_consumer_select.mp hm with ⟨_, hmid, d, hd, hdc, hdm⟩
        have hempty : a.isEmpty = false := by
          by_contra h
          have : a.isEmpty = true := by simpa using h
          exact h3 (by simp [negotiate, this])
        refine ⟨⟨d, hd, hdc, hdm.trans hmid⟩, hempty, ?_⟩
        rcases hbest : a.best ["text/plain", "application/json",
            "message/rfc822"] with _ | s
        · rfl
        · have hmem := a.best_mem _ _ hbest
          have hs : negotiate a ["text/plain", "application/json",
              "message/rfc822"] = some s := by
            simp [negotiate, hempty, hbest]
          rcases List.mem_cons.mp hmem with rfl | hmem'
          · exact absurd hs h1
          rcases List.mem_cons.mp hmem' with rfl | hmem''
          · exact absurd hs h3
          rcases List.mem_cons.mp hmem'' with rfl | hmem'''
          · exact absurd hs h2
          · cases hmem'''

/-- Witness for C5: a consumer with no dispatch gets 404 on an unmatchable
`Accept`, and with a dispatch the same `Accept` yields 406, which implies
the dispatch exists and nothing matched. -/
theorem retrieve_mail_404_before_406_witness :
    (retrieve_mail ⟨[⟨"m1", 0, "", []⟩], [], [⟨1, "c"⟩], []⟩ 1 "m1"
      acceptUnmatchable = .ok .notFound) ∧
    ((∃ d ∈ [(⟨1, "m1", none, 0, 0⟩ : Dispatch)],
        d.consumer_id = 1 ∧ d.mail_id = "m1") ∧
      acceptUnmatchable.isEmpty = false ∧
      acceptUnmatchable.best
        ["text/plain", "application/json", "message/rfc822"] = none) := by
  constructor
  · exact (retrieve_mail_404_before_406 _ 1 "m1" acceptUnmatchable).1
      (by intro d hd; cases hd)
  · exact (retrieve_mail_404_before_406
        ⟨[⟨"m1", 0, "", []⟩], [], [⟨1, "c"⟩], [⟨1, "m1", none, 0, 0⟩]⟩
        1 "m1" acceptUnmatchable).2 (by rfl)

/-! ### C9 — `DELETE /mail/{id}` removes exactly one dispatch -/

/-- **C9.** `DELETE /mail/{id}` removes exactly the `Dispatch(consumer, id)`
rows: the mail table, attachment table, consumer table and every dispatch
with a different key are unchanged, a dispatch survives iff its key
differs, the response is 200 exactly when such a dispatch existed and 404
otherwise. -/
theorem delete_mail_exact (db : DB) (cid : Nat) (id : String) :
    ((delete_mail db cid id).2.mails = db.mails) ∧
    ((delete_mail db cid id).2.attachments = db.attachments) ∧
    ((delete_mail db cid id).2.consumers = db.consumers) ∧
    (∀ d : Dispatch, d ∈ (delete_mail db cid id).2.dispatches ↔
      d ∈ db.dispatches ∧ ¬(d.consumer_id = cid ∧ d.mail_id = id)) ∧
    ((∃ d ∈ db.dispatches, d.consumer_id = cid ∧ d.mail_id = id) →
      (delete_mail db cid id).1 = 200) ∧
    ((∀ d ∈ db.dispatches, ¬(d.consumer_id = cid ∧ d.mail_id = id)) →
      (delete_mail db cid id).1 = 404) := by
  refine ⟨rfl, rfl, rfl, ?_, ?_, ?_⟩
  · intro d
    simp only [delete_mail, List.mem_filter, Bool.not_eq_eq_eq_not,
      Bool.not_true, Bool.and_eq_false_iff]
    constructor
    · rintro ⟨hd, hcond⟩
      refine ⟨hd, ?_⟩
      rintro ⟨hc, hm⟩
      simp [hc, hm] at hcond
    · rintro ⟨hd, hcond⟩
      refine ⟨hd, ?_⟩
      simp only [Bool.not_eq_true', Bool.and_eq_false_iff, beq_eq_false_iff_ne]
      by_cases hm : d.mail_id = id
      · exact Or.inr fun hc => hcond ⟨hc, hm⟩
      · exact Or.inl hm
  · rintro ⟨d, hd, hc, hm⟩
    have : db.dispatches.countP
        (fun d => d.mail_id == id && d.consumer_id == cid) ≠ 0 := by
      rw [Ne, List.countP_eq_zero]
      push_neg
      exact ⟨d, hd, by simp [hc, hm]⟩
    simp [delete_mail, this]
  · intro hnone
    have : db.dispatches.countP
        (fun d => d.mail_id == id && d.consumer_id == cid) = 0 := by
      rw [List.countP_eq_zero]
      intro d hd
      have := hnone d hd
      simp only [Bool.and_eq_true, beq_iff_eq]
      rintro ⟨hm, hc⟩
      exact this ⟨hc, hm⟩
    simp [delete_mail, this]

/-- Witness for C9: deleting the only dispatch answers 200 and leaves the
mail row; deleting from an empty table answers 404. -/
theorem delete_mail_exact_witness :
    (delete_mail ⟨[⟨"m1", 0, "", []⟩], [], [⟨1, "c"⟩],
        [⟨1, "m1", none, 0, 0⟩]⟩ 1 "m1").1 = 200 ∧
    (delete_mail ⟨[⟨"m1", 0, "", []⟩], [], [⟨1, "c"⟩], []⟩ 1 "m1").1 = 404 := by
  constructor
  · exact (delete_mail_exact _ 1 "m1").2.2.2.2.1
      ⟨⟨1, "m1", none, 0, 0⟩, by simp, rfl, rfl⟩
  · exact (delete_mail_exact _ 1 "m1").2.2.2.2.2 (by intro d hd; cases hd)

/-! ### C10 — unguarded UTF-8 decode on the text modes -/

/-- **C10.** When `GET /mail/{id}` negotiates to `text/plain` or
`message/rfc822` and the dispatch-joined mail exists, the handler decodes
the stored `Mail.data` as UTF-8 with no guard: valid UTF-8 yields the 200
body, invalid UTF-8 raises instead of producing any response. -/
theorem retrieve_mail_text_decode_unguarded (db : DB) (cid : Nat)
    (id : String) (a : AcceptHeader) (mt : String) (m : Mail)
    (hmt : mt = "text/plain" ∨ mt = "message/rfc822")
    (hneg : negotiate a ["text/plain", "application/json", "message/rfc822"] =
      some mt)
    (hm : (consumer_select db cid id).head? = some m) :
    (∀ s, utf8Decode m.data = some s →
      retrieve_mail db cid id a = .ok (.text mt s)) ∧
    (utf8Decode m.data = none → retrieve_mail db cid id a = .error ()) := by
  rcases hmt with rfl | rfl <;> constructor
  · intro s hdec
    simp [retrieve_mail, hneg, retrieve_mail_as_text, hm, hdec]
  · intro hdec
    simp [retrieve_mail, hneg, retrieve_mail_as_text, hm, hdec]
  · intro s hdec
    simp [retrieve_mail, hneg, retrieve_mail_as_text, hm, hdec]
  · intro hdec
    simp [retrieve_mail, hneg, retrieve_mail_as_text, hm, hdec]

/-- Witness for C10: a stored mail whose bytes are not valid UTF-8 (`0xFF`)
makes the `text/plain` read raise; valid bytes are returned decoded. -/
theorem retrieve_mail_text_decode_unguarded_witness :
    (retrieve_mail ⟨[⟨"m1", 0, "", [255]⟩], [], [⟨1, "c"⟩],
        [⟨1, "m1", none, 0, 0⟩]⟩ 1 "m1" (acceptExactly "text/plain") =
      .error ()) ∧
    (retrieve_mail ⟨[⟨"m1", 0, "", [104, 105]⟩], [], [⟨1, "c"⟩],
        [⟨1, "m1", none, 0, 0⟩]⟩ 1 "m1" (acceptExactly "text/plain") =
      .ok (.text "text/plain" [104, 105])) := by
  constructor
  · exact (retrieve_mail_text_decode_unguarded _ 1 "m1"
        (acceptExactly "text/plain") "text/plain" ⟨"m1", 0, "", [255]⟩
        (Or.inl rfl) (by rfl) (by rfl)).2 (by rfl)
  · exact (retrieve_mail_text_decode_unguarded _ 1 "m1"
        (acceptExactly "text/plain") "text/plain" ⟨"m1", 0, "", [104, 105]⟩
        (Or.inl rfl) (by rfl) (by rfl)).1 [104, 105] (by rfl)

/-! ### C6 — re-encoding of textual payloads -/

/-- **C6 counterexample.** A scrubber tuple with textual payload `"é"`
(code point 233), declared `text/plain` with charset `iso-8859-1`, and no
sniffer estimate: the loader stores `data = [233]` (the iso-8859-1
encoding) and forces `code = "utf-8"`, but the UTF-8 re-encoding of the
payload is `[195, 169]` — the stored bytes are not the UTF-8 re-encoding
the claim asserts. -/
theorem reencode_not_utf8_counterexample :
    load_attachment ⟨fun _ => none, pyDecode, pyEncode⟩
        ⟨1, none, "text/plain", some "iso-8859-1", .str [233]⟩ =
      some ⟨1, none, "text/plain", some "utf-8", [233]⟩ ∧
    utf8Encode [233] = some [195, 169] ∧
    ([233] : Bytes) ≠ [195, 169] := by
  refine ⟨by rfl, by rfl, by decide⟩

/-- **C6 amended.** For every scrubber tuple whose payload ended up textual
after the sniffing and decoding steps, the stored data is that string
encoded with the attachment's (possibly sniffed) charset code — or UTF-8
when no code is present — and the stored code is forced to `"utf-8"` when
the type begins with `text/` (and is absent otherwise).  The stored data
is the UTF-8 re-encoding exactly in the case that the effective code is
`utf-8`. -/
theorem textual_payload_reencoded (cx : Codecs) (t : ScrubTuple)
    (s : List Nat) (r : AttachmentRec)
    (hs : decodeStage cx (sniffStage cx t).1 (sniffStage cx t).2 t.data =
      .str s)
    (hload : load_attachment cx t = some r) :
    cx.enc ((sniffStage cx t).2.getD "utf-8") s = some r.data ∧
    r.type = (sniffStage cx t).1 ∧
    r.code = (if strStartsWith (sniffStage cx t).1 "text/" then some "utf-8"
      else none) ∧
    r.number = t.number ∧ r.name = t.name := by
  unfold load_attachment at hload
  simp only [hs] at hload
  rcases henc : cx.enc ((sniffStage cx t).2.getD "utf-8") s with _ | b <;>
    simp only [henc] at hload
  · cases hload
  · injection hload with h
    subst h
    exact ⟨rfl, rfl, rfl, rfl, rfl⟩

/-- Witness for the amended C6: with charset iso-8859-1 the stored data is
the iso-8859-1 encoding of the payload and the code is forced to utf-8. -/
theorem textual_payload_reencoded_witness :
    pyEncode "iso-8859-1" [233] = some [233] ∧
    (⟨1, none, "text/plain", some "utf-8", [233]⟩ : AttachmentRec).code =
      some "utf-8" := by
  have h := textual_payload_reencoded ⟨fun _ => none, pyDecode, pyEncode⟩
    ⟨1, none, "text/plain", some "iso-8859-1", .str [233]⟩ [233]
    ⟨1, none, "text/plain", some "utf-8", [233]⟩ (by rfl) (by rfl)
  exact ⟨h.1, h.2.2.1.trans (by rfl)⟩

/-! ### C7 — decode failures on text attachments are not fatal -/

/-- When every element maps to `some`, monadic `mapM` over `Option`
succeeds with the `filterMap`. -/
theorem mapM_eq_some_filterMap {α β : Type} (f : α → Option β) :
    ∀ l : List α, (∀ a ∈ l, (f a).isSome) →
      l.mapM f = some (l.filterMap f) := by
  intro l
  rw [← List.mapM'_eq_mapM]
  induction l with
  | nil => intro; rfl
  | cons x xs ih =>
    intro h
    rcases hx : f x with _ | y
    · have := h x (List.mem_cons_self x xs)
      rw [hx] at this
      cases this
    · have hxs := ih fun a ha => h a (List.mem_cons_of_mem x ha)
      simp [List.mapM', hx, hxs, List.filterMap_cons]

/-- **C7.** For an attachment whose (post-sniff) type begins with `text/`
and whose payload is bytes, the loader attempts
`data.decode(code or "utf-8")`; when that decode fails the original bytes
are stored unchanged, the attachment still loads, and the ingest of the
whole mail still succeeds (given the other tuples load), with the
bytes-kept attachment among the stored ones. -/
theorem decode_failure_keeps_bytes (cx : Codecs) (t : ScrubTuple) (b : Bytes)
    (hb : t.data = Payload.bytes b)
    (htext : strStartsWith (sniffStage cx t).1 "text/" = true)
    (hdec : cx.dec ((sniffStage cx t).2.getD "utf-8") b = none) :
    (load_attachment cx t = some ⟨t.number, t.name, (sniffStage cx t).1,
      (if strStartsWith (sniffStage cx t).1 "text/" ∧ (sniffStage cx t).2.isSome
        then (sniffStage cx t).2 else none), b⟩) ∧
    ∀ (id : String) (date : Int) (text : String) (origin : Bytes)
      (ts : List ScrubTuple), t ∈ ts →
      (∀ u ∈ ts, (load_attachment cx u).isSome) →
      ∃ mr, load_mail_record cx id date text origin ts = some mr ∧
        (⟨t.number, t.name, (sniffStage cx t).1,
          (if strStartsWith (sniffStage cx t).1 "text/" ∧
            (sniffStage cx t).2.isSome then (sniffStage cx t).2 else none),
          b⟩ : AttachmentRec) ∈ mr.attachments := by
  have hstage : decodeStage cx (sniffStage cx t).1 (sniffStage cx t).2 t.data =
      .bytes b := by
    rw [hb]
    simp [decodeStage, htext, hdec]
  have hload : load_attachment cx t = some ⟨t.number, t.name,
      (sniffStage cx t).1,
      (if strStartsWith (sniffStage cx t).1 "text/" ∧ (sniffStage cx t).2.isSome
        then (sniffStage cx t).2 else none), b⟩ := by
    unfold load_attachment
    rw [hstage]
  refine ⟨hload, ?_⟩
  intro id date text origin ts hmem hall
  have hmap := mapM_eq_some_filterMap (load_attachment cx) ts hall
  refine ⟨⟨id, date, text, origin, ts.filterMap (load_attachment cx)⟩, ?_, ?_⟩
  · unfold load_mail_record
    rw [hmap]
  · exact List.mem_filterMap.mpr ⟨t, hmem, hload⟩

/-- Witness for C7: a declared `text/plain` part whose bytes `[255]` are
not valid UTF-8 (sniffer unavailable) keeps its bytes and the one-tuple
mail still ingests. -/
theorem decode_failure_keeps_bytes_witness :
    load_mail_record ⟨fun _ => none, pyDecode, pyEncode⟩ "m1" 0 "" []
        [⟨1, none, "text/plain", none, .bytes [255]⟩] =
      some ⟨"m1", 0, "", [],
        [⟨1, none, "text/plain", none, [255]⟩]⟩ := by
  have h := (decode_failure_keeps_bytes ⟨fun _ => none, pyDecode, pyEncode⟩
    ⟨1, none, "text/plain", none, .bytes [255]⟩ [255] rfl (by rfl)
    (by rfl)).2 "m1" 0 "" [] [⟨1, none, "text/plain", none, .bytes [255]⟩]
    (by simp) (by intro u hu; simp at hu; subst hu; rfl)
  rcases h with ⟨mr, hmr, hmem⟩
  rw [hmr]
  rcases hmem2 : mr.attachments with _ | _
  · rw [hmem2] at hmem
    cases hmem
  · have : mr = ⟨"m1", 0, "", [],
        [⟨1, none, "text/plain", none, [255]⟩]⟩ := by
      have := hmr
      unfold load_mail_record at this
      simp only [List.mapM_cons, List.mapM_nil] at this
      revert this
      rcases hla : load_attachment ⟨fun _ => none, pyDecode, pyEncode⟩
          ⟨1, none, "text/plain", none, .bytes [255]⟩ with _ | r2
      · intro h2
        simp at h2
      · intro h2
        simp at h2
        have hr2 : r2 = ⟨1, none, "text/plain", none, [255]⟩ := by
          have := hla.symm.trans (by rfl :
            load_attachment ⟨fun _ => none, pyDecode, pyEncode⟩
              ⟨1, none, "text/plain", none, .bytes [255]⟩ =
            some ⟨1, none, "text/plain", none, [255]⟩)
          exact Option.some.inj this
        rw [← h2, hr2]
    rw [this]

/-! ### Helper lemmas for the delivery engine -/

theorem mem_of_head? {α : Type} {l : List α} {a : α} (h : l.head? = some a) :
    a ∈ l := by
  rcases List.head?_eq_some_iff.mp h with ⟨ys, rfl⟩
  exact List.mem_cons_self a ys

theorem isDue_spec {cid : Nat} {now : Int} {d : Dispatch}
    (h : isDue cid now d = true) : d.consumer_id = cid ∧ d.next_time ≤ now := by
  simpa [isDue] using h

theorem mem_orderByNext {l : List Dispatch} {d : Dispatch} :
    d ∈ orderByNext l ↔ d ∈ l := by
  unfold orderByNext
  exact List.mem_insertionSort _

/-- A successfully claimed dispatch is a due row of the table, restricted
to the requested mail when one is given. -/
theorem claim_one_spec {db : DB} {cid : Nat} {now : Int}
    {mid : Option String} {d : Dispatch}
    (h : claim_one db cid now mid = some d) :
    d ∈ db.dispatches ∧ isDue cid now d = true ∧
      ∀ m, mid = some m → d.mail_id = m := by
  have hmem := mem_of_head? h
  rw [mem_orderByNext] at hmem
  have := List.mem_filter.mp hmem
  rcases this with ⟨hd, hcond⟩
  rcases mid with _ | m
  · refine ⟨hd, by simpa using hcond, ?_⟩
    intro m hm
    cases hm
  · simp only [Bool.and_eq_true, beq_iff_eq] at hcond
    exact ⟨hd, hcond.1, fun m' hm' => by cases hm'; exact hcond.2⟩

theorem resourceFor_id (db : DB) (mid : String) :
    (resourceFor db mid).id = mid := by
  rcases hh : (db.mails.filter (fun m => m.id == mid)).head? with _ | m
  · simp [resourceFor, hh]
  · have hm := mem_of_head? hh
    have hid : m.id = mid := by simpa using (List.mem_filter.mp hm).2
    simp [resourceFor, hh, load_mail_resource, hid]

/-- The committed dispatch table of the batch handler. -/
theorem select_mail_dispatches (db : DB) (cid : Nat) (now : Int) :
    (select_mail_as_json db cid now).2.dispatches =
      db.dispatches.map
        (fun d => if isDue cid now d then advance now d else d) := rfl

/-- Every resource emitted by the batch handler stems from a due dispatch
of the consumer on that mail. -/
theorem batch_resource_has_due_dispatch {db : DB} {cid : Nat} {now : Int}
    {r : MailResource} (hr : r ∈ (select_mail_as_json db cid now).1) :
    ∃ d ∈ db.dispatches, isDue cid now d = true ∧ d.mail_id = r.id := by
  unfold select_mail_as_json at hr
  rcases List.mem_map.mp hr with ⟨m, hm, rfl⟩
  rcases List.mem_flatMap.mp hm with ⟨dU, hdU, hmm⟩
  have hmid : m.id = dU.mail_id := by
    simpa using (List.mem_filter.mp hmm).2
  rw [mem_orderByNext] at hdU
  rcases List.mem_map.mp hdU with ⟨d0, hd0, rfl⟩
  rcases List.mem_filter.mp hd0 with ⟨hd0m, hd0due⟩
  refine ⟨d0, hd0m, hd0due, ?_⟩
  have : (advance now d0).mail_id = d0.mail_id := rfl
  simp [load_mail_resource]
  rw [hmid, ← this]

/-- A row of the advanced table matching the advanced key carries the new
`last_time`/`next_time`; rows with any other key are untouched. -/
theorem applyAdvance_spec (db : DB) (cid : Nat) (mid : String) (now : Int) :
    (∀ d' ∈ (applyAdvance db cid mid now).dispatches,
      d'.consumer_id = cid → d'.mail_id = mid →
      d'.last_time = some now ∧ d'.next_time = now + hour) ∧
    (∀ d0 ∈ db.dispatches, (d0.consumer_id, d0.mail_id) ≠ (cid, mid) →
      d0 ∈ (applyAdvance db cid mid now).dispatches) ∧
    (∀ d' ∈ (applyAdvance db cid mid now).dispatches,
      ∃ d0 ∈ db.dispatches, d'.consumer_id = d0.consumer_id ∧
        d'.mail_id = d0.mail_id) := by
  refine ⟨?_, ?_, ?_⟩
  · intro d' hd' hc hm
    rcases List.mem_map.mp hd' with ⟨d0, hd0, rfl⟩
    by_cases hcond : (d0.consumer_id == cid && d0.mail_id == mid) = true
    · simp [hcond, advance]
    · rw [if_neg hcond] at hc hm ⊢
      exact absurd (by simp [hc, hm]) hcond
  · intro d0 hd0 hkey
    refine List.mem_map.mpr ⟨d0, hd0, ?_⟩
    have hcond : (d0.consumer_id == cid && d0.mail_id == mid) = false := by
      simp only [Bool.and_eq_false_iff, beq_eq_false_iff_ne]
      by_cases hc : d0.consumer_id = cid
      · right
        intro hm
        exact hkey (by rw [hc, hm])
      · exact Or.inl hc
    rw [hcond]
    rfl
  · intro d' hd'
    rcases List.mem_map.mp hd' with ⟨d0, hd0, rfl⟩
    by_cases hcond : (d0.consumer_id == cid && d0.mail_id == mid) = true
    · exact ⟨d0, hd0, by simp [hcond, advance]⟩
    · rw [if_neg hcond]
      exact ⟨d0, hd0, rfl, rfl⟩

/-- The id carried by a streamed event. -/
def evMailId : Ev → String
  | .commit mid => mid
  | .emit r => r.id

/-- Every event of a drain traces back to a dispatch row of the consumer
present when the drain started. -/
theorem drain_events_from_dispatches {cid : Nat} {now : Int} :
    ∀ (fuel : Nat) (db : DB), ∀ ev ∈ (drain fuel db cid now).1,
      ∃ d0 ∈ db.dispatches, d0.consumer_id = cid ∧ evMailId ev = d0.mail_id := by
  intro fuel
  induction fuel with
  | zero => intro db ev hev; cases hev
  | succ fuel ih =>
    intro db ev hev
    unfold drain at hev
    rcases hclaim : drainStep db cid now with _ | ⟨d, res, db1⟩ <;>
      rw [hclaim] at hev
    · cases hev
    · unfold drainStep at hclaim
      rcases hc1 : claim_one db cid now none with _ | d0 <;>
        rw [hc1] at hclaim
      · cases hclaim
      · injection hclaim with h1
        injection h1 with hd h2
        injection h2 with hres hdb1
        subst hd hres hdb1
        rcases claim_one_spec hc1 with ⟨hmem, hdue, _⟩
        have hcons := (isDue_spec hdue).1
        rcases List.mem_cons.mp hev with rfl | hev1
        · exact ⟨d0, hmem, hcons, rfl⟩
        rcases List.mem_cons.mp hev1 with rfl | hev2
        · exact ⟨d0, hmem, hcons, resourceFor_id db d0.mail_id⟩
        · rcases ih _ ev hev2 with ⟨d1, hd1, hd1c, hd1m⟩
          rcases (applyAdvance_spec db cid d0.mail_id now).2.2 d1 hd1
            with ⟨d2, hd2, hc2, hm2⟩
          exact ⟨d2, hd2, hc2 ▸ hd1c, hm2 ▸ hd1m⟩

/-! ### C3 — batch ordering key is the post-update `next_time` -/

/-- Two mails, both dispatched to consumer 1 and due, stored with
pre-update `next_time` 20 (mail `A`) before 10 (mail `B`). -/
def dbC3 : DB :=
  ⟨[⟨"A", 0, "", []⟩, ⟨"B", 0, "", []⟩], [], [⟨1, "c"⟩],
   [⟨1, "A", none, 20, 0⟩, ⟨1, "B", none, 10, 0⟩]⟩

/-- The pre-update `next_time` of the consumer's dispatch on a mail. -/
def preUpdateNext (db : DB) (cid : Nat) (mid : String) : Int :=
  (((db.dispatches.find? fun d => d.consumer_id == cid && d.mail_id == mid)).map
    Dispatch.next_time).getD 0

/-- **C3.** The batch handler's `ORDER BY dispatch_update.next_time` sorts
on the CTE's `RETURNING` rows, which carry the *post-update* `next_time`
(`now() + 1h`, identical for every returned row), so the pre-update order
is not enforced: with `dbC3` the response lists mail `A` (pre-update
`next_time` 20) before mail `B` (pre-update `next_time` 10) — not the
ascending pre-update order the claim states. -/
theorem batch_order_not_pre_update :
    ((select_mail_as_json dbC3 1 100).1.map
      (fun r => (r.id, preUpdateNext dbC3 1 r.id)) =
      [("A", 20), ("B", 10)]) ∧
    ¬ ((select_mail_as_json dbC3 1 100).1.map
      (fun r => preUpdateNext dbC3 1 r.id)).Sorted (· ≤ ·) := by
  constructor
  · rfl
  · intro h
    have hmap : (select_mail_as_json dbC3 1 100).1.map
        (fun r => preUpdateNext dbC3 1 r.id) = [20, 10] := by rfl
    rw [hmap] at h
    have h20 : (20 : Int) ≤ 10 :=
      List.rel_of_sorted_cons h 10 (List.mem_singleton.mpr rfl)
    omega

/-! ### C2 — delivery sets `last_time = now` and `next_time = now + 1h` -/

/-- **C2.** After every successful delivery of a mail to a consumer through
`GET /mail` — by the batch handler, by a drain step of the stream, or by
the notification branch — the consumer's dispatch row on that mail in the
committed database has `last_time = now` and `next_time = now + 1h`, hence
`next_time ≥ last_time + 1h`. -/
theorem delivery_sets_last_and_next (db : DB) (cid : Nat) (now : Int)
    (wf : db.WF) :
    (∀ r ∈ (select_mail_as_json db cid now).1,
      ∀ d' ∈ (select_mail_as_json db cid now).2.dispatches,
        d'.consumer_id = cid → d'.mail_id = r.id →
        d'.last_time = some now ∧ d'.next_time = now + hour ∧
          (∀ t, d'.last_time = some t → d'.next_time ≥ t + hour)) ∧
    (∀ d res db1, drainStep db cid now = some (d, res, db1) →
      ∀ d' ∈ db1.dispatches, d'.consumer_id = cid → d'.mail_id = res.id →
        d'.last_time = some now ∧ d'.next_time = now + hour ∧
          (∀ t, d'.last_time = some t → d'.next_time ≥ t + hour)) ∧
    (∀ payload r db1 evs, notifyStep db cid now payload = (evs, db1) →
      Ev.emit r ∈ evs →
      ∀ d' ∈ db1.dispatches, d'.consumer_id = cid → d'.mail_id = r.id →
        d'.last_time = some now ∧ d'.next_time = now + hour ∧
          (∀ t, d'.last_time = some t → d'.next_time ≥ t + hour)) := by
  have hout : ∀ d' : Dispatch,
      d'.last_time = some now → d'.next_time = now + hour →
      d'.last_time = some now ∧ d'.next_time = now + hour ∧
        (∀ t, d'.last_time = some t → d'.next_time ≥ t + hour) := by
    intro d' h1 h2
    refine ⟨h1, h2, ?_⟩
    intro t ht
    rw [h1] at ht
    injection ht with ht
    omega
  refine ⟨?_, ?_, ?_⟩
  · intro r hr d' hd' hc hm
    rcases batch_resource_has_due_dispatch hr with ⟨d0, hd0, hdue, hdm⟩
    rw [select_mail_dispatches] at hd'
    rcases List.mem_map.mp hd' with ⟨d1, hd1, rfl⟩
    by_cases hdue1 : isDue cid now d1 = true
    · rw [if_pos hdue1] at hc hm ⊢
      exact hout _ rfl rfl
    · rw [if_neg hdue1] at hc hm ⊢
      have hkey : (d1.consumer_id, d1.mail_id) = (d0.consumer_id, d0.mail_id) := by
        rw [hc, hm, (isDue_spec hdue).1, hdm]
      have : d1 = d0 := pairwise_key_eq _ wf.2.1 hd1 hd0 hkey
      rw [this] at hdue1
      exact absurd hdue hdue1
  · intro d res db1 hstep d' hd' hc hm
    unfold drainStep at hstep
    rcases hc1 : claim_one db cid now none with _ | d0 <;>
      rw [hc1] at hstep
    · cases hstep
    · injection hstep with h1
      injection h1 with hd h2
      injection h2 with hres hdb1
      subst hd hres hdb1
      rw [resourceFor_id] at hm
      exact hout d'
        ((applyAdvance_spec db cid d0.mail_id now).1 d' hd' hc hm).1
        ((applyAdvance_spec db cid d0.mail_id now).1 d' hd' hc hm).2
  · intro payload r db1 evs hstep hemit d' hd' hc hm
    unfold notifyStep at hstep
    rcases hc1 : claim_one db cid now (some payload) with _ | d0 <;>
      rw [hc1] at hstep
    · injection hstep with hevs hdb1
      subst hevs
      cases hemit
    · injection hstep with hevs hdb1
      subst hevs hdb1
      rcases List.mem_cons.mp hemit with h | h
      · cases h
      rcases List.mem_cons.mp h with h' | h'
      · have hr : r = resourceFor db d0.mail_id := by
          injection h'
        rw [hr, resourceFor_id] at hm
        exact hout d'
          ((applyAdvance_spec db cid d0.mail_id now).1 d' hd' hc hm).1
          ((applyAdvance_spec db cid d0.mail_id now).1 d' hd' hc hm).2
      · cases h'

/-- Witness for C2 at a concrete store: one due dispatch, delivered by the
batch handler at `now = 100`, ends with `last_time = 100` and
`next_time = 3700`. -/
theorem delivery_sets_last_and_next_witness :
    (⟨1, "m1", some 100, 100 + hour, 0⟩ : Dispatch).last_time = some 100 ∧
    (⟨1, "m1", some 100, 100 + hour, 0⟩ : Dispatch).next_time = 100 + hour := by
  have h := (delivery_sets_last_and_next
      ⟨[⟨"m1", 0, "", []⟩], [], [⟨1, "c"⟩], [⟨1, "m1", none, 0, 0⟩]⟩
      1 100 (by decide)).1
    ⟨"m1", []⟩ (by decide)
    ⟨1, "m1", some 100, 100 + hour, 0⟩ (by decide) rfl rfl
  exact ⟨h.1, h.2.1⟩

/-! ### C1 — a Dispatch row gates every read -/

/-- Helper: with no dispatch the per-mail handler answers 404 on every
negotiation outcome. -/
theorem retrieve_mail_404_of_no_dispatch {db : DB} {cid : Nat} {mid : String}
    (hnd : ∀ d ∈ db.dispatches, d.consumer_id = cid → d.mail_id ≠ mid)
    (a : AcceptHeader) : retrieve_mail db cid mid a = .ok .notFound := by
  have hsel := consumer_select_eq_nil hnd
  unfold retrieve_mail
  split
  · unfold retrieve_mail_as_text
    rw [hsel]
    rfl
  · unfold retrieve_mail_as_text
    rw [hsel]
    rfl
  · unfold retrieve_mail_as_json
    rw [hsel]
    rfl
  · rw [hsel]
    rfl

/-- **C1.** Without a `Dispatch(cid, M)` row, no read operation exposes
mail `M` or its attachments to consumer `cid`: `GET /mail/{id}` answers
404 for every `Accept` header, `GET /mail/{id}/attachment/{n}` answers 404
for every `n` and every `Accept` header, the batch `GET /mail` response
contains no resource for `M`, and neither the drain loop nor the
notification branch of the stream ever commits or yields an event for
`M`. -/
theorem dispatch_gates_every_read (db : DB) (cid : Nat) (M : String)
    (hnd : ∀ d ∈ db.dispatches, d.consumer_id = cid → d.mail_id ≠ M) :
    (∀ a, retrieve_mail db cid M a = .ok .notFound) ∧
    (∀ n a, retrieve_attachment db cid M n a = .notFound) ∧
    (∀ now, ∀ r ∈ (select_mail_as_json db cid now).1, r.id ≠ M) ∧
    (∀ fuel now, ∀ ev ∈ (drain fuel db cid now).1, evMailId ev ≠ M) ∧
    (∀ now payload, ∀ ev ∈ (notifyStep db cid now payload).1,
      evMailId ev ≠ M) := by
  refine ⟨retrieve_mail_404_of_no_dispatch hnd, ?_, ?_, ?_, ?_⟩
  · intro n a
    unfold retrieve_attachment
    rw [attachment_join_eq_nil hnd]
    rfl
  · intro now r hr hid
    rcases batch_resource_has_due_dispatch hr with ⟨d0, hd0, hdue, hdm⟩
    exact hnd d0 hd0 (isDue_spec hdue).1 (hdm.trans hid)
  · intro fuel now ev hev hid
    rcases drain_events_from_dispatches fuel db ev hev with ⟨d0, hd0, hc, hm⟩
    exact hnd d0 hd0 hc (hm.symm.trans hid)
  · intro now payload ev hev hid
    unfold notifyStep at hev
    rcases hc1 : claim_one db cid now (some payload) with _ | d0 <;>
      rw [hc1] at hev
    · cases hev
    · rcases claim_one_spec hc1 with ⟨hmem, hdue, _⟩
      have hcons := (isDue_spec hdue).1
      rcases List.mem_cons.mp hev with rfl | hev1
      · exact hnd d0 hmem hcons hid
      rcases List.mem_cons.mp hev1 with rfl | hev2
      · exact hnd d0 hmem hcons
          (((resourceFor_id db d0.mail_id).symm.trans hid))
      · cases hev2

/-- Witness for C1: consumer 1 has no dispatch on mail `m2` (only on
`m1`), so every read of `m2` is refused while `m1` is still readable. -/
theorem dispatch_gates_every_read_witness :
    (retrieve_mail ⟨[⟨"m2", 0, "", []⟩], [⟨"m2", 1, none, "text/plain",
        none, []⟩], [⟨1, "c"⟩], [⟨1, "m1", none, 0, 0⟩]⟩ 1 "m2"
      acceptAbsent = .ok .notFound) ∧
    (retrieve_attachment ⟨[⟨"m2", 0, "", []⟩], [⟨"m2", 1, none, "text/plain",
        none, []⟩], [⟨1, "c"⟩], [⟨1, "m1", none, 0, 0⟩]⟩ 1 "m2" 1
      acceptAbsent = .notFound) := by
  constructor
  · exact (dispatch_gates_every_read _ 1 "m2" (by decide)).1 acceptAbsent
  · exact (dispatch_gates_every_read _ 1 "m2" (by decide)).2.1 1 acceptAbsent

/-! ### C8 — the stream commits a single dispatch before each yield -/

/-- Number of committed single-dispatch updates in a trace. -/
def countCommit (l : List Ev) : Nat :=
  l.countP fun e => match e with
    | .commit _ => true
    | .emit _ => false

/-- Number of yielded resource lines in a trace. -/
def countEmit (l : List Ev) : Nat :=
  l.countP fun e => match e with
    | .commit _ => false
    | .emit _ => true

/-- In a trace made of `[commit, emit]` blocks, every prefix has at least
as many commits as emits, and at most one commit not yet followed by its
emit. -/
theorem blocks_prefix_count (ps : List (String × MailResource)) :
    ∀ n, countEmit ((ps.flatMap
        fun p => [Ev.commit p.1, Ev.emit p.2]).take n) ≤
      countCommit ((ps.flatMap fun p => [Ev.commit p.1, Ev.emit p.2]).take n) ∧
      countCommit ((ps.flatMap fun p => [Ev.commit p.1, Ev.emit p.2]).take n) ≤
      countEmit ((ps.flatMap fun p => [Ev.commit p.1, Ev.emit p.2]).take n)
        + 1 := by
  induction ps with
  | nil =>
    intro n
    simp [countEmit, countCommit]
  | cons p ps ih =>
    intro n
    match n with
    | 0 => simp [countEmit, countCommit]
    | 1 => simp [countEmit, countCommit, List.countP_cons]
    | Nat.succ (Nat.succ n) =>
      have := ih n
      simp only [List.flatMap_cons, List.cons_append, List.nil_append,
        List.take_succ_cons, countEmit, countCommit, List.countP_cons] at *
      omega

/-- **C8.** The incremental stream interleaves exactly one committed
single-dispatch update before each yielded line: the drain trace and the
notification trace are concatenations of `[commit, emit]` blocks (never an
emit before its commit); hence every trace prefix — any client-disconnect
point — contains at most one commit without its yield, and each committed
update touches no dispatch row other than the claimed key. -/
theorem stream_commits_before_yield (fuel : Nat) (db : DB) (cid : Nat)
    (now : Int) (payload : String) (mid : String) :
    (∃ ps : List (String × MailResource), (drain fuel db cid now).1 =
      ps.flatMap fun p => [Ev.commit p.1, Ev.emit p.2]) ∧
    (∀ n, countEmit (((drain fuel db cid now).1).take n) ≤
        countCommit (((drain fuel db cid now).1).take n) ∧
      countCommit (((drain fuel db cid now).1).take n) ≤
        countEmit (((drain fuel db cid now).1).take n) + 1) ∧
    (∃ ps : List (String × MailResource), (notifyStep db cid now payload).1 =
      ps.flatMap fun p => [Ev.commit p.1, Ev.emit p.2]) ∧
    (∀ d0 ∈ db.dispatches, (d0.consumer_id, d0.mail_id) ≠ (cid, mid) →
      d0 ∈ (applyAdvance db cid mid now).dispatches) := by
  have hblocks : ∀ (fuel : Nat) (db : DB),
      ∃ ps : List (String × MailResource), (drain fuel db cid now).1 =
        ps.flatMap fun p => [Ev.commit p.1, Ev.emit p.2] := by
    intro fuel
    induction fuel with
    | zero => exact fun db => ⟨[], rfl⟩
    | succ fuel ih =>
      intro db
      unfold drain
      rcases hstep : drainStep db cid now with _ | ⟨d, res, db1⟩
      · exact ⟨[], rfl⟩
      · rcases ih db1 with ⟨ps, hps⟩
        exact ⟨(d.mail_id, res) :: ps, by simp [hps]⟩
  rcases hblocks fuel db with ⟨ps, hps⟩
  refine ⟨⟨ps, hps⟩, ?_, ?_, (applyAdvance_spec db cid mid now).2.1⟩
  · intro n
    rw [hps]
    exact blocks_prefix_count ps n
  · unfold notifyStep
    rcases hc1 : claim_one db cid now (some payload) with _ | d0
    · exact ⟨[], rfl⟩
    · exact ⟨[(d0.mail_id, resourceFor db d0.mail_id)], rfl⟩

/-- Witness for C8 at a concrete store: the two-dispatch drain trace is
`commit, emit, commit, emit`, and an update of dispatch `(1, B)` leaves
the `(1, A)` row in place. -/
theorem stream_commits_before_yield_witness :
    (drain 5 dbC3 1 100).1 = [Ev.commit "B", Ev.emit ⟨"B", []⟩,
      Ev.commit "A", Ev.emit ⟨"A", []⟩] ∧
    (⟨1, "A", none, 20, 0⟩ : Dispatch) ∈
      (applyAdvance dbC3 1 "B" 100).dispatches := by
  constructor
  · rfl
  · exact (stream_commits_before_yield 5 dbC3 1 100 "B" "B").2.2.2
      ⟨1, "A", none, 20, 0⟩ (by decide) (by decide)

end Archiver
